import Mathlib

/-!
Verification of the spring-constraint rope simulation (`src/main_state.rs`).

The source is a 2D point-mass / distance-constraint simulation over `f32`
vectors (glam `Vec2` via macroquad).  We embed it shallowly over the real
numbers: each `f32` scalar becomes an `ℝ`, `Vec2` becomes a pair of reals,
`Vec::<Node>` becomes `List Node`, and the per-tick `update` pipeline becomes
a pure state-transition function parameterised by the polled input (mouse
position and right-button state).  Field and function names follow the source.
-/

namespace SpringDemo

/-- A 2D vector, modelling glam `Vec2` with real components. -/
structure Vec2 where
  x : ℝ
  y : ℝ

instance : Zero Vec2 := ⟨⟨0, 0⟩⟩

instance : Add Vec2 := ⟨fun v w => ⟨v.x + w.x, v.y + w.y⟩⟩

instance : Sub Vec2 := ⟨fun v w => ⟨v.x - w.x, v.y - w.y⟩⟩

instance : Neg Vec2 := ⟨fun v => ⟨-v.x, -v.y⟩⟩

instance : SMul ℝ Vec2 := ⟨fun k v => ⟨k * v.x, k * v.y⟩⟩

/-- Euclidean length, modelling glam `Vec2::length` (idealised over ℝ). -/
noncomputable def Vec2.length (v : Vec2) : ℝ := Real.sqrt (v.x ^ 2 + v.y ^ 2)

/-- Normalisation falling back to the zero vector, modelling glam
`Vec2::normalize_or_zero`: a zero-length vector normalises to zero. -/
noncomputable def Vec2.normalize_or_zero (v : Vec2) : Vec2 :=
  if v.length = 0 then 0 else (1 / v.length) • v

/-- Fixed timestep (source constant `DT`). -/
noncomputable def DT : ℝ := 0.15

/-- Gravity magnitude (source constant `G`). -/
noncomputable def G : ℝ := 18.0

/-- Rest length of every constraint (source constant `TARGET_DIST`). -/
noncomputable def TARGET_DIST : ℝ := 50.0

/-- Relaxation stiffness (source constant `RIGIDITY`). -/
noncomputable def RIGIDITY : ℝ := 1.0

/-- Linear drag coefficient (source constant `DRAG`). -/
noncomputable def DRAG : ℝ := 0.5

/-- Number of chain nodes (source constant `NUM_POINTS`). -/
def NUM_POINTS : ℕ := 10

/-- A point mass, modelling `struct Node`. -/
structure Node where
  last_pos : Vec2
  pos : Vec2
  vel : Vec2
  force : Vec2
  mass : ℝ
  fixed : Bool

instance : Inhabited Node := ⟨⟨0, 0, 0, 0, 1, false⟩⟩

/-- Modelling `Node::with_pos_and_mass`. -/
def Node.with_pos_and_mass (p : Vec2) (m : ℝ) : Node :=
  { pos := p, last_pos := p, vel := 0, force := 0, mass := m, fixed := false }

/-- Modelling `Node::integrate`. -/
noncomputable def Node.integrate (n : Node) : Node :=
  if n.fixed then n
  else
    let acc := (1 / n.mass) • n.force
    let vel := n.vel + DT • acc
    { n with last_pos := n.pos, vel := vel, pos := n.pos + DT • vel }

/-- Modelling `Node::differentiate`. -/
noncomputable def Node.differentiate (n : Node) : Node :=
  if n.fixed then n
  else { n with vel := (1 / DT) • (n.pos - n.last_pos), force := 0 }

/-- Modelling `Node::apply_gravity`. -/
noncomputable def Node.apply_gravity (n : Node) : Node :=
  if n.fixed then n
  else { n with force := n.force + ⟨0, G * n.mass⟩ }

/-- Modelling `Node::apply_drag`. -/
noncomputable def Node.apply_drag (n : Node) : Node :=
  if n.fixed then n
  else { n with force := n.force + -(DRAG • n.vel) }

/-- Modelling `Node::add_offs`. -/
def Node.add_offs (n : Node) (offs : Vec2) : Node :=
  if n.fixed then n else { n with pos := n.pos + offs }

/-- Index lookup in the node arena (`arena[i]` in the source; out-of-range
reads, which the valid-index invariant rules out, return the default node). -/
def getNode (arena : List Node) (i : ℕ) : Node := arena.getD i default

/-- A distance constraint between two arena indices, modelling `struct Constraint`. -/
structure Constraint where
  a : ℕ
  b : ℕ
  break_threshold : ℝ

/-- The positional correction `offs` computed inside `Constraint::solve` from
the two endpoints' current data, including the halving applied when the pair
is compressed (`dist < TARGET_DIST`). -/
noncomputable def solveOffs (na nb : Node) : Vec2 :=
  let r := nb.pos - na.pos
  let dist := r.length
  let norm := r.normalize_or_zero
  let diff := dist - TARGET_DIST
  let offs := (diff * RIGIDITY / (na.mass + nb.mass)) • norm
  if dist < TARGET_DIST then (0.5 : ℝ) • offs else offs

/-- Modelling `Constraint::solve`: both offsets are computed from the arena as
read at entry, then applied in order (first to `a`, then to `b`). -/
noncomputable def Constraint.solve (c : Constraint) (arena : List Node) : List Node :=
  let na := getNode arena c.a
  let nb := getNode arena c.b
  let offs := solveOffs na nb
  let a_offs := (1 / na.mass) • offs
  let b_offs := -((1 / nb.mass) • offs)
  let arena1 := arena.set c.a ((getNode arena c.a).add_offs a_offs)
  arena1.set c.b ((getNode arena1 c.b).add_offs b_offs)

/-- The external input polled during one tick: current mouse position and
whether the right (cutting) button is held. -/
structure Input where
  mouse_pos : Vec2
  right_down : Bool

/-- The arena after `MainState::apply_wind`: skipped entirely while the right
button is held; otherwise every node within 30 units of the mouse gains force
`(mouse − last_mouse) * 50`. -/
noncomputable def windArena (held : Bool) (mouse last : Vec2) (arena : List Node) :
    List Node :=
  if held then arena
  else arena.map (fun node =>
    if (node.pos - mouse).length < 30 then
      { node with force := node.force + (50 : ℝ) • (mouse - last) }
    else node)

/-- One pass of `MainState::solve_constraints` over the constraint list. -/
noncomputable def solvePass (cs : List Constraint) (arena : List Node) : List Node :=
  cs.foldl (fun ar c => c.solve ar) arena

/-- Runs `n` relaxation passes (the source runs 5). -/
noncomputable def solveIters : ℕ → List Constraint → List Node → List Node
  | 0, _, arena => arena
  | n + 1, cs, arena => solveIters n cs (solvePass cs arena)

/-- The breaking filter of `MainState::update`: keep a constraint iff its
endpoints' current distance is below its `break_threshold`. -/
noncomputable def breakStep (arena : List Node) (cs : List Constraint) : List Constraint :=
  cs.filter (fun c =>
    decide (((getNode arena c.a).pos - (getNode arena c.b).pos).length < c.break_threshold))

/-- The counter-clockwise orientation predicate `ccw` from the cutting test. -/
noncomputable def ccw (a b c : Vec2) : Bool :=
  decide ((c.y - a.y) * (b.x - a.x) > (b.y - a.y) * (c.x - a.x))

/-- The segment-intersection test of the cutting step, on a constraint's
endpoints `a`, `b` and the cut segment `c` (mouse) to `d` (last mouse). -/
noncomputable def cutIntersects (a b c d : Vec2) : Bool :=
  (ccw a c d != ccw b c d) && (ccw a b c != ccw a b d)

/-- The cutting filter of `MainState::update`: when the right button is held,
drop every constraint whose segment intersects the mouse's swept segment. -/
noncomputable def cutStep (held : Bool) (mouse last : Vec2) (arena : List Node)
    (cs : List Constraint) : List Constraint :=
  if held then
    cs.filter (fun c =>
      ! cutIntersects (getNode arena c.a).pos (getNode arena c.b).pos mouse last)
  else cs

/-- The simulation state, modelling `struct MainState`. -/
structure MainState where
  arena : List Node
  constraints : List Constraint
  last_mouse_pos : Vec2

/-- Modelling `MainState::apply_wind` at state level. -/
noncomputable def MainState.apply_wind (input : Input) (s : MainState) : MainState :=
  { s with arena := windArena input.right_down input.mouse_pos s.last_mouse_pos s.arena }

/-- Modelling `MainState::solve_constraints` (5 full passes). -/
noncomputable def MainState.solve_constraints (s : MainState) : MainState :=
  { s with arena := solveIters 5 s.constraints s.arena }

/-- The arena after the forces, integration and relaxation stages of one
`update` call (steps 1–5 of the tick). -/
noncomputable def MainState.relaxed_arena (input : Input) (s : MainState) : List Node :=
  solveIters 5 s.constraints
    ((windArena input.right_down input.mouse_pos s.last_mouse_pos
      ((s.arena.map Node.apply_gravity).map Node.apply_drag)).map Node.integrate)

/-- Modelling `MainState::update`: gravity, drag, wind, integration, 5
relaxation passes, breaking filter, cutting filter (right button only),
differentiation, and recording the mouse position. -/
noncomputable def MainState.update (input : Input) (s : MainState) : MainState :=
  let arena5 := s.relaxed_arena input
  let cs6 := breakStep arena5 s.constraints
  let cs7 := cutStep input.right_down input.mouse_pos s.last_mouse_pos arena5 cs6
  { arena := arena5.map Node.differentiate,
    constraints := cs7,
    last_mouse_pos := input.mouse_pos }

/-- Iterated ticks: fold `update` over a list of per-tick inputs. -/
noncomputable def runUpdates (inputs : List Input) (s : MainState) : MainState :=
  inputs.foldl (fun st inp => st.update inp) s

/-- Modelling `MainState::default`: `NUM_POINTS` nodes laid out vertically
from `(w/3, h/5)` with spacing `TARGET_DIST`, node 0 fixed, and a chain
constraint from node `i − 1` to node `i` for each `i ≥ 1`, with break
threshold `TARGET_DIST * 5`.  The screen size and initial mouse position are
the polled external values. -/
noncomputable def MainState.default (w h : ℝ) (mouse : Vec2) : MainState :=
  { arena := (List.range NUM_POINTS).map (fun (i : ℕ) =>
      let node := Node.with_pos_and_mass
        ⟨w / 3, h / 5 + TARGET_DIST * (i : ℝ)⟩
        (1 + ((i : ℝ) / 20) ^ 2 * 0)
      if i = 0 then { node with fixed := true } else node),
    constraints := (List.range (NUM_POINTS - 1)).map (fun j =>
      { a := j, b := j + 1, break_threshold := TARGET_DIST * 5 }),
    last_mouse_pos := mouse }

/-- The correction as C2 reads it: the direction is the unit vector between
the endpoints taken from node `b` towards node `a`, `diff` is length minus
the target length, and the magnitude is `diff * RIGIDITY` over the summed
masses, halved while compressed. -/
noncomputable def specOffset (na nb : Node) : Vec2 :=
  let direction := (na.pos - nb.pos).normalize_or_zero
  let len := (na.pos - nb.pos).length
  let diff := len - TARGET_DIST
  let offset := (diff * RIGIDITY / (na.mass + nb.mass)) • direction
  if len < TARGET_DIST then (0.5 : ℝ) • offset else offset

/-- The uncompressed correction of `Constraint::solve`: the value `offs`
takes before the `dist < TARGET_DIST` halving. -/
noncomputable def fullOffs (na nb : Node) : Vec2 :=
  (((nb.pos - na.pos).length - TARGET_DIST) * RIGIDITY / (na.mass + nb.mass)) •
    (nb.pos - na.pos).normalize_or_zero

/-- Concrete two-node arena used by witnesses: unit masses, 100 units apart. -/
noncomputable def witArena : List Node :=
  [Node.with_pos_and_mass ⟨0, 0⟩ 1, Node.with_pos_and_mass ⟨0, 100⟩ 1]

/-- Concrete chain constraint used by witnesses. -/
noncomputable def witC : Constraint := ⟨0, 1, 250⟩

/-- Concrete two-node arena at exactly the rest distance. -/
noncomputable def restArena : List Node :=
  [Node.with_pos_and_mass ⟨0, 0⟩ 1, Node.with_pos_and_mass ⟨0, 50⟩ 1]

/-- Concrete two-node arena with coincident endpoints. -/
noncomputable def coincidentArena : List Node :=
  [Node.with_pos_and_mass ⟨3, 4⟩ 1, Node.with_pos_and_mass ⟨3, 4⟩ 1]

/-- A pinned node used by the C3 counterexample. -/
noncomputable def fixedNodeAt (p : Vec2) : Node :=
  { last_pos := p, pos := p, vel := 0, force := 0, mass := 1, fixed := true }

/-- Two pinned nodes exactly at the break threshold distance (250). -/
noncomputable def cexArena : List Node := [fixedNodeAt ⟨0, 0⟩, fixedNodeAt ⟨0, 250⟩]

/-- Counterexample state for C3: both endpoints pinned, threshold exactly met. -/
noncomputable def cexState : MainState := ⟨cexArena, [witC], 0⟩

/-- Pointer input for the C3 counterexample (button up, mouse at origin). -/
noncomputable def cexInput : Input := ⟨0, false⟩

/-- The valid-topology invariant of the constraint set: distinct endpoint
indices, both within the node arena. -/
def GoodState (s : MainState) : Prop :=
  ∀ c ∈ s.constraints, c.a ≠ c.b ∧ c.a < s.arena.length ∧ c.b < s.arena.length

@[simp] theorem Vec2.zero_x : (0 : Vec2).x = 0 := rfl

@[simp] theorem Vec2.zero_y : (0 : Vec2).y = 0 := rfl

@[simp] theorem Vec2.add_x (v w : Vec2) : (v + w).x = v.x + w.x := rfl

@[simp] theorem Vec2.add_y (v w : Vec2) : (v + w).y = v.y + w.y := rfl

@[simp] theorem Vec2.sub_x (v w : Vec2) : (v - w).x = v.x - w.x := rfl

@[simp] theorem Vec2.sub_y (v w : Vec2) : (v - w).y = v.y - w.y := rfl

@[simp] theorem Vec2.neg_x (v : Vec2) : (-v).x = -v.x := rfl

@[simp] theorem Vec2.neg_y (v : Vec2) : (-v).y = -v.y := rfl

@[simp] theorem Vec2.smul_x (k : ℝ) (v : Vec2) : (k • v).x = k * v.x := rfl

@[simp] theorem Vec2.smul_y (k : ℝ) (v : Vec2) : (k • v).y = k * v.y := rfl

theorem Vec2.ext_iff {v w : Vec2} : v = w ↔ v.x = w.x ∧ v.y = w.y := by
  constructor
  · intro h; subst h; exact ⟨rfl, rfl⟩
  · rintro ⟨hx, hy⟩; cases v; cases w; simp_all

@[simp] theorem Vec2.add_zero (v : Vec2) : v + 0 = v := by
  simp [ext_iff]

@[simp] theorem Vec2.smul_zero (k : ℝ) : k • (0 : Vec2) = 0 := by
  simp [ext_iff]

@[simp] theorem Vec2.zero_smul (v : Vec2) : (0 : ℝ) • v = 0 := by
  simp [ext_iff]

@[simp] theorem Vec2.sub_self (v : Vec2) : v - v = 0 := by
  simp [ext_iff]

theorem Vec2.neg_smul (k : ℝ) (v : Vec2) : (-k) • v = -(k • v) := by
  simp [ext_iff]

@[simp] theorem Vec2.neg_zero : -(0 : Vec2) = 0 := by
  simp [ext_iff]

theorem Vec2.smul_neg (k : ℝ) (v : Vec2) : k • (-v) = -(k • v) := by
  simp [ext_iff]

theorem Vec2.length_nonneg (v : Vec2) : 0 ≤ v.length := Real.sqrt_nonneg _

@[simp] theorem Vec2.length_zero : (0 : Vec2).length = 0 := by
  simp [length]

theorem Vec2.length_eq_zero_iff {v : Vec2} : v.length = 0 ↔ v = 0 := by
  unfold length
  rw [Real.sqrt_eq_zero (by positivity), ext_iff]
  constructor
  · intro h
    have hx : v.x ^ 2 = 0 ∧ v.y ^ 2 = 0 := by
      constructor <;> nlinarith [sq_nonneg v.x, sq_nonneg v.y]
    simpa [pow_eq_zero_iff] using hx
  · rintro ⟨hx, hy⟩; simp [hx, hy]

@[simp] theorem Vec2.length_neg (v : Vec2) : (-v).length = v.length := by
  simp [length, neg_pow]

theorem Vec2.length_smul (k : ℝ) (v : Vec2) : (k • v).length = |k| * v.length := by
  unfold length
  have : (k * v.x) ^ 2 + (k * v.y) ^ 2 = k ^ 2 * (v.x ^ 2 + v.y ^ 2) := by ring
  rw [smul_x, smul_y, this, Real.sqrt_mul (sq_nonneg k), Real.sqrt_sq_eq_abs]

theorem Vec2.length_sub_comm (v w : Vec2) : (v - w).length = (w - v).length := by
  have : v - w = -(w - v) := by simp [ext_iff]
  rw [this, length_neg]

@[simp] theorem Vec2.normalize_or_zero_zero : normalize_or_zero 0 = 0 := by
  simp [normalize_or_zero]

theorem Vec2.normalize_or_zero_neg (v : Vec2) :
    normalize_or_zero (-v) = -(normalize_or_zero v) := by
  unfold normalize_or_zero
  rw [length_neg]
  by_cases h : v.length = 0
  · have hv : v = 0 := length_eq_zero_iff.mp h
    simp [hv]
  · simp only [if_neg h, smul_neg]

@[simp] theorem Node.add_offs_fixed (n : Node) (offs : Vec2) (h : n.fixed = true) :
    n.add_offs offs = n := by
  simp [add_offs, h]

@[simp] theorem Node.add_offs_zero (n : Node) : n.add_offs 0 = n := by
  unfold add_offs
  by_cases h : n.fixed
  · simp [h]
  · simp only [if_neg h, Vec2.add_zero]

theorem Node.integrate_fixed (n : Node) (h : n.fixed = true) : n.integrate = n := by
  simp [integrate, h]

theorem Node.differentiate_fixed (n : Node) (h : n.fixed = true) : n.differentiate = n := by
  simp [differentiate, h]

theorem Node.apply_gravity_fixed (n : Node) (h : n.fixed = true) : n.apply_gravity = n := by
  simp [apply_gravity, h]

theorem Node.apply_drag_fixed (n : Node) (h : n.fixed = true) : n.apply_drag = n := by
  simp [apply_drag, h]

@[simp] theorem Node.apply_gravity_pos (n : Node) : n.apply_gravity.pos = n.pos := by
  unfold apply_gravity; by_cases h : n.fixed <;> simp [h]

@[simp] theorem Node.apply_gravity_vel (n : Node) : n.apply_gravity.vel = n.vel := by
  unfold apply_gravity; by_cases h : n.fixed <;> simp [h]

@[simp] theorem Node.apply_gravity_fixed_flag (n : Node) : n.apply_gravity.fixed = n.fixed := by
  unfold apply_gravity; by_cases h : n.fixed <;> simp [h]

@[simp] theorem Node.apply_drag_pos (n : Node) : n.apply_drag.pos = n.pos := by
  unfold apply_drag; by_cases h : n.fixed <;> simp [h]

@[simp] theorem Node.apply_drag_vel (n : Node) : n.apply_drag.vel = n.vel := by
  unfold apply_drag; by_cases h : n.fixed <;> simp [h]

@[simp] theorem Node.apply_drag_fixed_flag (n : Node) : n.apply_drag.fixed = n.fixed := by
  unfold apply_drag; by_cases h : n.fixed <;> simp [h]

@[simp] theorem Node.add_offs_vel (n : Node) (offs : Vec2) : (n.add_offs offs).vel = n.vel := by
  unfold add_offs; by_cases h : n.fixed <;> simp [h]

@[simp] theorem Node.add_offs_fixed_flag (n : Node) (offs : Vec2) :
    (n.add_offs offs).fixed = n.fixed := by
  unfold add_offs; by_cases h : n.fixed <;> simp [h]

@[simp] theorem Node.add_offs_mass (n : Node) (offs : Vec2) : (n.add_offs offs).mass = n.mass := by
  unfold add_offs; by_cases h : n.fixed <;> simp [h]

theorem Node.add_offs_pos_not_fixed (n : Node) (offs : Vec2) (h : n.fixed = false) :
    (n.add_offs offs).pos = n.pos + offs := by
  simp [add_offs, h]

theorem getNode_eq_getElem (arena : List Node) (i : ℕ) (h : i < arena.length) :
    getNode arena i = arena[i] := by
  simp [getNode, List.getD_eq_getElem?_getD, List.getElem?_eq_getElem h]

theorem getNode_set_self (arena : List Node) (i : ℕ) (n : Node) (h : i < arena.length) :
    getNode (arena.set i n) i = n := by
  simp [getNode, List.getD_eq_getElem?_getD, List.getElem?_set_self h]

theorem getNode_set_ne (arena : List Node) (i j : ℕ) (n : Node) (hij : i ≠ j) :
    getNode (arena.set i n) j = getNode arena j := by
  simp [getNode, List.getD_eq_getElem?_getD, List.getElem?_set_ne hij]

theorem getNode_set_oob (arena : List Node) (i : ℕ) (n : Node) (h : ¬ i < arena.length) :
    arena.set i n = arena :=
  List.set_eq_of_length_le (by omega)

theorem getNode_map (f : Node → Node) (arena : List Node) (i : ℕ) (h : i < arena.length) :
    getNode (arena.map f) i = f (getNode arena i) := by
  rw [getNode_eq_getElem _ _ (by simpa using h), getNode_eq_getElem _ _ h]
  simp

/-- Writing `f` of the current node back at index `j` (the shape of both
`add_offs` writes in `Constraint::solve`). -/
theorem getNode_set_touch (arena : List Node) (j : ℕ) (f : Node → Node) (i : ℕ) :
    getNode (arena.set j (f (getNode arena j))) i =
      if i = j ∧ j < arena.length then f (getNode arena i) else getNode arena i := by
  by_cases hj : j < arena.length
  · by_cases hij : i = j
    · subst hij
      rw [getNode_set_self _ _ _ hj]
      simp [hj]
    · rw [getNode_set_ne _ _ _ _ (fun h => hij h.symm)]
      simp [hij]
  · rw [getNode_set_oob _ _ _ hj]
    simp [hj]

theorem getNode_set_same (arena : List Node) (j i : ℕ) :
    getNode (arena.set j (getNode arena j)) i = getNode arena i := by
  have := getNode_set_touch arena j id i
  simpa using this

/-- A fixed node is untouched by `Constraint::solve` (`add_offs` guards on
the `fixed` flag). -/
theorem solve_getNode_fixed (c : Constraint) (arena : List Node) (i : ℕ)
    (hf : (getNode arena i).fixed = true) :
    getNode (c.solve arena) i = getNode arena i := by
  unfold Constraint.solve
  have h1 := getNode_set_touch arena c.a
    (fun n => n.add_offs ((1 / (getNode arena c.a).mass) • solveOffs (getNode arena c.a) (getNode arena c.b))) i
  set arena1 := arena.set c.a ((getNode arena c.a).add_offs
    ((1 / (getNode arena c.a).mass) • solveOffs (getNode arena c.a) (getNode arena c.b))) with harena1
  have heq1 : getNode arena1 i = getNode arena i := by
    rw [h1]
    by_cases hc : i = c.a ∧ c.a < arena.length
    · simp only [if_pos hc, Node.add_offs_fixed _ _ hf]
    · simp only [if_neg hc]
  have hf1 : (getNode arena1 i).fixed = true := by rw [heq1]; exact hf
  have h2 := getNode_set_touch arena1 c.b
    (fun n => n.add_offs (-((1 / (getNode arena c.b).mass) • solveOffs (getNode arena c.a) (getNode arena c.b)))) i
  rw [h2]
  by_cases hc : i = c.b ∧ c.b < arena1.length
  · simp only [if_pos hc, heq1, Node.add_offs_fixed _ _ hf]
  · simp only [if_neg hc, heq1]

theorem solve_length (c : Constraint) (arena : List Node) :
    (c.solve arena).length = arena.length := by
  unfold Constraint.solve
  simp

/-- The node at endpoint `a` after one `solve` call. -/
theorem solve_getNode_a (c : Constraint) (arena : List Node)
    (hab : c.a ≠ c.b) (ha : c.a < arena.length) :
    getNode (c.solve arena) c.a =
      (getNode arena c.a).add_offs
        ((1 / (getNode arena c.a).mass) • solveOffs (getNode arena c.a) (getNode arena c.b)) := by
  unfold Constraint.solve
  rw [getNode_set_ne _ _ _ _ (fun h => hab h.symm), getNode_set_self _ _ _ ha]

/-- The node at endpoint `b` after one `solve` call. -/
theorem solve_getNode_b (c : Constraint) (arena : List Node)
    (hab : c.a ≠ c.b) (hb : c.b < arena.length) :
    getNode (c.solve arena) c.b =
      (getNode arena c.b).add_offs
        (-((1 / (getNode arena c.b).mass) • solveOffs (getNode arena c.a) (getNode arena c.b))) := by
  unfold Constraint.solve
  have hb1 : c.b < (arena.set c.a ((getNode arena c.a).add_offs
      ((1 / (getNode arena c.a).mass) • solveOffs (getNode arena c.a) (getNode arena c.b)))).length := by
    simpa using hb
  rw [getNode_set_self _ _ _ hb1, getNode_set_ne _ _ _ _ hab]

theorem windArena_length (held : Bool) (mouse last : Vec2) (arena : List Node) :
    (windArena held mouse last arena).length = arena.length := by
  unfold windArena
  by_cases h : held <;> simp [h]

/-- Wind only adds to the force accumulator: position, velocity and the
`fixed` flag of every node survive `apply_wind` unchanged. -/
theorem windArena_getNode (held : Bool) (mouse last : Vec2) (arena : List Node)
    (i : ℕ) (hi : i < arena.length) :
    (getNode (windArena held mouse last arena) i).pos = (getNode arena i).pos ∧
    (getNode (windArena held mouse last arena) i).vel = (getNode arena i).vel ∧
    (getNode (windArena held mouse last arena) i).fixed = (getNode arena i).fixed := by
  unfold windArena
  by_cases h : held
  · simp [h]
  · simp only [if_neg h]
    rw [getNode_map _ _ _ hi]
    by_cases hr : ((getNode arena i).pos - mouse).length < 30 <;> simp [hr]

theorem solvePass_length (cs : List Constraint) (arena : List Node) :
    (solvePass cs arena).length = arena.length := by
  induction cs generalizing arena with
  | nil => rfl
  | cons c cs ih =>
    show (solvePass cs (c.solve arena)).length = arena.length
    rw [ih, solve_length]

theorem solvePass_getNode_fixed (cs : List Constraint) (arena : List Node) (i : ℕ)
    (hf : (getNode arena i).fixed = true) :
    getNode (solvePass cs arena) i = getNode arena i := by
  induction cs generalizing arena with
  | nil => rfl
  | cons c cs ih =>
    show getNode (solvePass cs (c.solve arena)) i = getNode arena i
    rw [ih (c.solve arena) (by rw [solve_getNode_fixed c arena i hf]; exact hf),
      solve_getNode_fixed c arena i hf]

theorem solveIters_length (n : ℕ) (cs : List Constraint) (arena : List Node) :
    (solveIters n cs arena).length = arena.length := by
  induction n generalizing arena with
  | zero => rfl
  | succ n ih =>
    show (solveIters n cs (solvePass cs arena)).length = arena.length
    rw [ih, solvePass_length]

theorem solveIters_getNode_fixed (n : ℕ) (cs : List Constraint) (arena : List Node)
    (i : ℕ) (hf : (getNode arena i).fixed = true) :
    getNode (solveIters n cs arena) i = getNode arena i := by
  induction n generalizing arena with
  | zero => rfl
  | succ n ih =>
    show getNode (solveIters n cs (solvePass cs arena)) i = getNode arena i
    rw [ih (solvePass cs arena) (by rw [solvePass_getNode_fixed cs arena i hf]; exact hf),
      solvePass_getNode_fixed cs arena i hf]

theorem relaxed_arena_length (input : Input) (s : MainState) :
    (s.relaxed_arena input).length = s.arena.length := by
  unfold MainState.relaxed_arena
  rw [solveIters_length]
  simp [windArena_length]

theorem update_arena_length (input : Input) (s : MainState) :
    (s.update input).arena.length = s.arena.length := by
  unfold MainState.update
  simp [relaxed_arena_length]

/-- A fixed node's position, velocity and `fixed` flag survive the whole
relaxed-arena stage (gravity, drag, wind, integration, relaxation). -/
theorem relaxed_arena_getNode_fixed (input : Input) (s : MainState) (i : ℕ)
    (hi : i < s.arena.length) (hf : (getNode s.arena i).fixed = true) :
    (getNode (s.relaxed_arena input) i).pos = (getNode s.arena i).pos ∧
    (getNode (s.relaxed_arena input) i).vel = (getNode s.arena i).vel ∧
    (getNode (s.relaxed_arena input) i).fixed = true := by
  unfold MainState.relaxed_arena
  set a1 := s.arena.map Node.apply_gravity with ha1
  have hi1 : i < a1.length := by simpa [ha1] using hi
  have e1 : getNode a1 i = getNode s.arena i := by
    rw [ha1, getNode_map _ _ _ hi, Node.apply_gravity_fixed _ hf]
  set a2 := a1.map Node.apply_drag with ha2
  have hi2 : i < a2.length := by simpa [ha2] using hi1
  have e2 : getNode a2 i = getNode s.arena i := by
    rw [ha2, getNode_map _ _ _ hi1, e1, Node.apply_drag_fixed _ hf]
  set a3 := windArena input.right_down input.mouse_pos s.last_mouse_pos a2 with ha3
  have hi3 : i < a3.length := by rw [ha3, windArena_length]; exact hi2
  have e3 := windArena_getNode input.right_down input.mouse_pos s.last_mouse_pos a2 i hi2
  have e3pos : (getNode a3 i).pos = (getNode s.arena i).pos := by
    rw [ha3, e3.1, e2]
  have e3vel : (getNode a3 i).vel = (getNode s.arena i).vel := by
    rw [ha3, e3.2.1, e2]
  have e3fix : (getNode a3 i).fixed = true := by
    rw [ha3, e3.2.2, e2]; exact hf
  set a4 := a3.map Node.integrate with ha4
  have hi4 : i < a4.length := by simpa [ha4] using hi3
  have e4 : getNode a4 i = getNode a3 i := by
    rw [ha4, getNode_map _ _ _ hi3, Node.integrate_fixed _ e3fix]
  have e5 := solveIters_getNode_fixed 5 s.constraints a4 i (by rw [e4]; exact e3fix)
  rw [e5, e4]
  exact ⟨e3pos, e3vel, e3fix⟩

/-- A fixed node's position, velocity and `fixed` flag survive one full
`update` tick. -/
theorem update_getNode_fixed (input : Input) (s : MainState) (i : ℕ)
    (hi : i < s.arena.length) (hf : (getNode s.arena i).fixed = true) :
    (getNode (s.update input).arena i).pos = (getNode s.arena i).pos ∧
    (getNode (s.update input).arena i).vel = (getNode s.arena i).vel ∧
    (getNode (s.update input).arena i).fixed = true := by
  have hr := relaxed_arena_getNode_fixed input s i hi hf
  have hi5 : i < (s.relaxed_arena input).length := by
    rw [relaxed_arena_length]; exact hi
  have harena : (s.update input).arena = (s.relaxed_arena input).map Node.differentiate := rfl
  have e6 : getNode ((s.relaxed_arena input).map Node.differentiate) i
      = getNode (s.relaxed_arena input) i := by
    rw [getNode_map _ _ _ hi5, Node.differentiate_fixed _ hr.2.2]
  rw [harena, e6]
  exact hr

/-- A fixed node's position, velocity and `fixed` flag survive any number of
`update` ticks, and the arena length never changes. -/
theorem runUpdates_getNode_fixed (inputs : List Input) (s : MainState) (i : ℕ)
    (hi : i < s.arena.length) (hf : (getNode s.arena i).fixed = true) :
    (getNode (runUpdates inputs s).arena i).pos = (getNode s.arena i).pos ∧
    (getNode (runUpdates inputs s).arena i).vel = (getNode s.arena i).vel ∧
    (getNode (runUpdates inputs s).arena i).fixed = true ∧
    (runUpdates inputs s).arena.length = s.arena.length := by
  induction inputs generalizing s with
  | nil => exact ⟨rfl, rfl, hf, rfl⟩
  | cons inp inputs ih =>
    have h1 := update_getNode_fixed inp s i hi hf
    have hlen := update_arena_length inp s
    have hstep : runUpdates (inp :: inputs) s = runUpdates inputs (s.update inp) := rfl
    have := ih (s.update inp) (by rw [hlen]; exact hi) h1.2.2
    rw [hstep]
    exact ⟨this.1.trans h1.1, this.2.1.trans h1.2.1, this.2.2.1, this.2.2.2.trans hlen⟩

/-- Claim C1: every node whose `fixed` flag is true keeps exactly its position and
velocity across any number of `update` ticks, whatever the per-tick pointer
inputs are — gravity, drag, wind, integration, relaxation, breaking, cutting
and differentiation all leave it in place. -/
theorem fixed_nodes_pos_vel_invariant (inputs : List Input) (s : MainState) (i : ℕ)
    (hi : i < s.arena.length) (hf : (getNode s.arena i).fixed = true) :
    (getNode (runUpdates inputs s).arena i).pos = (getNode s.arena i).pos ∧
    (getNode (runUpdates inputs s).arena i).vel = (getNode s.arena i).vel := by
  have h := runUpdates_getNode_fixed inputs s i hi hf
  exact ⟨h.1, h.2.1⟩

/-- Witness for C1 at a concrete one-node state and a two-tick input list. -/
theorem fixed_nodes_pos_vel_invariant_witness :
    0 < (MainState.mk [⟨0, ⟨1, 2⟩, 0, 0, 1, true⟩] [] 0).arena.length ∧
    (getNode (MainState.mk [⟨0, ⟨1, 2⟩, 0, 0, 1, true⟩] [] 0).arena 0).fixed = true ∧
    ((getNode (runUpdates [⟨⟨3, 4⟩, false⟩, ⟨⟨1, 2⟩, true⟩]
        (MainState.mk [⟨0, ⟨1, 2⟩, 0, 0, 1, true⟩] [] 0)).arena 0).pos =
      (getNode (MainState.mk [⟨0, ⟨1, 2⟩, 0, 0, 1, true⟩] [] 0).arena 0).pos ∧
     (getNode (runUpdates [⟨⟨3, 4⟩, false⟩, ⟨⟨1, 2⟩, true⟩]
        (MainState.mk [⟨0, ⟨1, 2⟩, 0, 0, 1, true⟩] [] 0)).arena 0).vel =
      (getNode (MainState.mk [⟨0, ⟨1, 2⟩, 0, 0, 1, true⟩] [] 0).arena 0).vel) :=
  ⟨by simp, rfl,
    fixed_nodes_pos_vel_invariant [⟨⟨3, 4⟩, false⟩, ⟨⟨1, 2⟩, true⟩]
      (MainState.mk [⟨0, ⟨1, 2⟩, 0, 0, 1, true⟩] [] 0) 0 (by simp) rfl⟩

/-- Claim C5: whenever the right (cutting) button is held during a tick, the wind
step is a complete no-op — `apply_wind` returns the state unchanged, so no
node's force accumulator (or any other field) is touched. -/
theorem apply_wind_skipped_when_cutting (input : Input) (s : MainState)
    (h : input.right_down = true) : s.apply_wind input = s := by
  simp [MainState.apply_wind, windArena, h]

/-- Witness for C5 at a concrete state with a node inside the pickup radius. -/
theorem apply_wind_skipped_when_cutting_witness :
    (Input.mk ⟨0, 0⟩ true).right_down = true ∧
    (MainState.mk [⟨0, ⟨5, 5⟩, 0, 0, 1, false⟩] [] 0).apply_wind (Input.mk ⟨0, 0⟩ true) =
      MainState.mk [⟨0, ⟨5, 5⟩, 0, 0, 1, false⟩] [] 0 :=
  ⟨rfl, apply_wind_skipped_when_cutting (Input.mk ⟨0, 0⟩ true)
    (MainState.mk [⟨0, ⟨5, 5⟩, 0, 0, 1, false⟩] [] 0) rfl⟩

theorem cutIntersects_eq_true_iff (a b p q : Vec2) :
    cutIntersects a b p q = true ↔
      (ccw a p q ≠ ccw b p q ∧ ccw a b p ≠ ccw a b q) := by
  unfold cutIntersects
  rw [Bool.and_eq_true, bne_iff_ne, bne_iff_ne]

/-- Claim C4: a constraint with endpoint positions `A`, `B` is removed by the
cutting step iff the button is held and, with `C` the current and `D` the
previous pointer position, `ccw A C D ≠ ccw B C D` and
`ccw A B C ≠ ccw A B D`; with the button up the cutting step removes
nothing. -/
theorem cut_step_membership (held : Bool) (mouse last : Vec2) (arena : List Node)
    (cs : List Constraint) (c : Constraint) (h : c ∈ cs) :
    c ∉ cutStep held mouse last arena cs ↔
      held = true ∧
        (ccw (getNode arena c.a).pos mouse last ≠ ccw (getNode arena c.b).pos mouse last ∧
         ccw (getNode arena c.a).pos (getNode arena c.b).pos mouse ≠
           ccw (getNode arena c.a).pos (getNode arena c.b).pos last) := by
  cases held with
  | false => simp [cutStep, h]
  | true =>
    rw [show cutStep true mouse last arena cs =
        cs.filter (fun k =>
          ! cutIntersects (getNode arena k.a).pos (getNode arena k.b).pos mouse last) from rfl]
    simp only [true_and]
    rw [← cutIntersects_eq_true_iff]
    constructor
    · intro hnot
      cases hcase : cutIntersects (getNode arena c.a).pos (getNode arena c.b).pos mouse last
      · exact absurd (List.mem_filter.mpr ⟨h, by simp [hcase]⟩) hnot
      · rfl
    · intro htrue hmem
      have hkeep := (List.mem_filter.mp hmem).2
      rw [htrue] at hkeep
      simp at hkeep

/-- Witness for C4 with the button up: the cutting step removes nothing. -/
theorem cut_step_membership_witness :
    Constraint.mk 0 1 (250 : ℝ) ∈ [Constraint.mk 0 1 (250 : ℝ)] ∧
    (Constraint.mk 0 1 (250 : ℝ) ∉
        cutStep false ⟨0, 0⟩ ⟨1, 1⟩ [] [Constraint.mk 0 1 (250 : ℝ)] ↔
      false = true ∧
        (ccw (getNode [] (Constraint.mk 0 1 (250 : ℝ)).a).pos ⟨0, 0⟩ ⟨1, 1⟩ ≠
            ccw (getNode [] (Constraint.mk 0 1 (250 : ℝ)).b).pos ⟨0, 0⟩ ⟨1, 1⟩ ∧
         ccw (getNode [] (Constraint.mk 0 1 (250 : ℝ)).a).pos
             (getNode [] (Constraint.mk 0 1 (250 : ℝ)).b).pos ⟨0, 0⟩ ≠
           ccw (getNode [] (Constraint.mk 0 1 (250 : ℝ)).a).pos
             (getNode [] (Constraint.mk 0 1 (250 : ℝ)).b).pos ⟨1, 1⟩)) :=
  ⟨List.mem_singleton.mpr rfl,
    cut_step_membership false ⟨0, 0⟩ ⟨1, 1⟩ [] [Constraint.mk 0 1 (250 : ℝ)]
      (Constraint.mk 0 1 (250 : ℝ)) (List.mem_singleton.mpr rfl)⟩

theorem solve_pos_a (c : Constraint) (arena : List Node)
    (hab : c.a ≠ c.b) (ha : c.a < arena.length)
    (hfa : (getNode arena c.a).fixed = false) :
    (getNode (c.solve arena) c.a).pos =
      (getNode arena c.a).pos +
        (1 / (getNode arena c.a).mass) • solveOffs (getNode arena c.a) (getNode arena c.b) := by
  rw [solve_getNode_a c arena hab ha, Node.add_offs_pos_not_fixed _ _ hfa]

theorem solve_pos_b (c : Constraint) (arena : List Node)
    (hab : c.a ≠ c.b) (hb : c.b < arena.length)
    (hfb : (getNode arena c.b).fixed = false) :
    (getNode (c.solve arena) c.b).pos =
      (getNode arena c.b).pos +
        -((1 / (getNode arena c.b).mass) • solveOffs (getNode arena c.a) (getNode arena c.b)) := by
  rw [solve_getNode_b c arena hab hb, Node.add_offs_pos_not_fixed _ _ hfb]

theorem specOffset_eq_neg_solveOffs (na nb : Node) :
    specOffset na nb = -(solveOffs na nb) := by
  simp only [specOffset, solveOffs]
  have hvec : na.pos - nb.pos = -(nb.pos - na.pos) := by simp [Vec2.ext_iff]
  rw [hvec, Vec2.length_neg, Vec2.normalize_or_zero_neg, Vec2.smul_neg]
  by_cases hlt : (nb.pos - na.pos).length < TARGET_DIST
  · rw [if_pos hlt, if_pos hlt, Vec2.smul_neg]
  · rw [if_neg hlt, if_neg hlt]

/-- Claim C2: on two non-fixed endpoints with non-zero separation, one `solve` call
moves endpoint `a` by exactly `−offset / mass_a` and endpoint `b` by exactly
`+offset / mass_b`, where `offset` is `specOffset`: the unit vector between
the endpoints (from `b` to `a`) times `(length − TARGET_DIST) * RIGIDITY /
(mass_a + mass_b)`, halved when the pair is compressed. -/
theorem solve_correction_formula (arena : List Node) (c : Constraint)
    (hab : c.a ≠ c.b) (ha : c.a < arena.length) (hb : c.b < arena.length)
    (hfa : (getNode arena c.a).fixed = false)
    (hfb : (getNode arena c.b).fixed = false)
    (hsep : (getNode arena c.a).pos ≠ (getNode arena c.b).pos) :
    (getNode (c.solve arena) c.a).pos =
      (getNode arena c.a).pos -
        (1 / (getNode arena c.a).mass) •
          specOffset (getNode arena c.a) (getNode arena c.b) ∧
    (getNode (c.solve arena) c.b).pos =
      (getNode arena c.b).pos +
        (1 / (getNode arena c.b).mass) •
          specOffset (getNode arena c.a) (getNode arena c.b) := by
  rw [solve_pos_a c arena hab ha hfa, solve_pos_b c arena hab hb hfb,
    specOffset_eq_neg_solveOffs]
  constructor
  · simp [Vec2.ext_iff]
  · simp [Vec2.ext_iff]

/-- Witness for C2 at two unit-mass free nodes 100 units apart. -/
theorem solve_correction_formula_witness :
    (Constraint.mk 0 1 (250 : ℝ)).a ≠ (Constraint.mk 0 1 (250 : ℝ)).b ∧
    (getNode [Node.with_pos_and_mass ⟨0, 0⟩ 1, Node.with_pos_and_mass ⟨0, 100⟩ 1] 0).pos ≠
      (getNode [Node.with_pos_and_mass ⟨0, 0⟩ 1, Node.with_pos_and_mass ⟨0, 100⟩ 1] 1).pos ∧
    ((getNode ((Constraint.mk 0 1 (250 : ℝ)).solve
        [Node.with_pos_and_mass ⟨0, 0⟩ 1, Node.with_pos_and_mass ⟨0, 100⟩ 1]) 0).pos =
      (getNode [Node.with_pos_and_mass ⟨0, 0⟩ 1, Node.with_pos_and_mass ⟨0, 100⟩ 1] 0).pos -
        (1 / (getNode [Node.with_pos_and_mass ⟨0, 0⟩ 1, Node.with_pos_and_mass ⟨0, 100⟩ 1] 0).mass) •
          specOffset (getNode [Node.with_pos_and_mass ⟨0, 0⟩ 1, Node.with_pos_and_mass ⟨0, 100⟩ 1] 0)
            (getNode [Node.with_pos_and_mass ⟨0, 0⟩ 1, Node.with_pos_and_mass ⟨0, 100⟩ 1] 1) ∧
     (getNode ((Constraint.mk 0 1 (250 : ℝ)).solve
        [Node.with_pos_and_mass ⟨0, 0⟩ 1, Node.with_pos_and_mass ⟨0, 100⟩ 1]) 1).pos =
      (getNode [Node.with_pos_and_mass ⟨0, 0⟩ 1, Node.with_pos_and_mass ⟨0, 100⟩ 1] 1).pos +
        (1 / (getNode [Node.with_pos_and_mass ⟨0, 0⟩ 1, Node.with_pos_and_mass ⟨0, 100⟩ 1] 1).mass) •
          specOffset (getNode [Node.with_pos_and_mass ⟨0, 0⟩ 1, Node.with_pos_and_mass ⟨0, 100⟩ 1] 0)
            (getNode [Node.with_pos_and_mass ⟨0, 0⟩ 1, Node.with_pos_and_mass ⟨0, 100⟩ 1] 1)) :=
  ⟨by decide, by simp [Node.with_pos_and_mass, getNode, Vec2.ext_iff],
    solve_correction_formula
      [Node.with_pos_and_mass ⟨0, 0⟩ 1, Node.with_pos_and_mass ⟨0, 100⟩ 1]
      (Constraint.mk 0 1 (250 : ℝ)) (by decide) (by simp) (by simp) rfl rfl
      (by simp [Node.with_pos_and_mass, getNode, Vec2.ext_iff])⟩

theorem solveOffs_eq_ite (na nb : Node) :
    solveOffs na nb =
      if (nb.pos - na.pos).length < TARGET_DIST then (0.5 : ℝ) • fullOffs na nb
      else fullOffs na nb := by
  simp only [solveOffs, fullOffs]

/-- Claim C6: when the endpoints are strictly closer than the target length, each
endpoint's positional correction from one `solve` call is exactly half of
what the uncompressed formula (`fullOffs` split by mass) would give; at or
beyond the target length the full correction is applied. -/
theorem solve_compression_halving (arena : List Node) (c : Constraint)
    (hab : c.a ≠ c.b) (ha : c.a < arena.length) (hb : c.b < arena.length)
    (hfa : (getNode arena c.a).fixed = false)
    (hfb : (getNode arena c.b).fixed = false) :
    (((getNode arena c.b).pos - (getNode arena c.a).pos).length < TARGET_DIST →
      ((getNode (c.solve arena) c.a).pos - (getNode arena c.a).pos =
          (0.5 : ℝ) • ((1 / (getNode arena c.a).mass) •
            fullOffs (getNode arena c.a) (getNode arena c.b)) ∧
       (getNode (c.solve arena) c.b).pos - (getNode arena c.b).pos =
          (0.5 : ℝ) • (-((1 / (getNode arena c.b).mass) •
            fullOffs (getNode arena c.a) (getNode arena c.b))))) ∧
    (TARGET_DIST ≤ ((getNode arena c.b).pos - (getNode arena c.a).pos).length →
      ((getNode (c.solve arena) c.a).pos - (getNode arena c.a).pos =
          (1 / (getNode arena c.a).mass) •
            fullOffs (getNode arena c.a) (getNode arena c.b) ∧
       (getNode (c.solve arena) c.b).pos - (getNode arena c.b).pos =
          -((1 / (getNode arena c.b).mass) •
            fullOffs (getNode arena c.a) (getNode arena c.b)))) := by
  rw [solve_pos_a c arena hab ha hfa, solve_pos_b c arena hab hb hfb, solveOffs_eq_ite]
  constructor
  · intro hlt
    rw [if_pos hlt]
    constructor <;>
      (rw [Vec2.ext_iff]; constructor <;>
        (simp only [Vec2.sub_x, Vec2.sub_y, Vec2.add_x, Vec2.add_y, Vec2.smul_x,
          Vec2.smul_y, Vec2.neg_x, Vec2.neg_y]; ring))
  · intro hge
    rw [if_neg (not_lt.mpr hge)]
    constructor <;>
      (rw [Vec2.ext_iff]; constructor <;>
        (simp only [Vec2.sub_x, Vec2.sub_y, Vec2.add_x, Vec2.add_y, Vec2.smul_x,
          Vec2.smul_y, Vec2.neg_x, Vec2.neg_y]; ring))

/-- Witness for C6 at two unit-mass free nodes 100 units apart. -/
theorem solve_compression_halving_witness :
    witC.a ≠ witC.b ∧
    (getNode witArena witC.a).fixed = false ∧
    ((((getNode witArena witC.b).pos - (getNode witArena witC.a).pos).length < TARGET_DIST →
      ((getNode (witC.solve witArena) witC.a).pos - (getNode witArena witC.a).pos =
          (0.5 : ℝ) • ((1 / (getNode witArena witC.a).mass) •
            fullOffs (getNode witArena witC.a) (getNode witArena witC.b)) ∧
       (getNode (witC.solve witArena) witC.b).pos - (getNode witArena witC.b).pos =
          (0.5 : ℝ) • (-((1 / (getNode witArena witC.b).mass) •
            fullOffs (getNode witArena witC.a) (getNode witArena witC.b))))) ∧
    (TARGET_DIST ≤ ((getNode witArena witC.b).pos - (getNode witArena witC.a).pos).length →
      ((getNode (witC.solve witArena) witC.a).pos - (getNode witArena witC.a).pos =
          (1 / (getNode witArena witC.a).mass) •
            fullOffs (getNode witArena witC.a) (getNode witArena witC.b) ∧
       (getNode (witC.solve witArena) witC.b).pos - (getNode witArena witC.b).pos =
          -((1 / (getNode witArena witC.b).mass) •
            fullOffs (getNode witArena witC.a) (getNode witArena witC.b))))) :=
  ⟨by simp [witC], rfl,
    solve_compression_halving witArena witC
      (by simp [witC]) (by simp [witArena, witC]) (by simp [witArena, witC]) rfl rfl⟩

theorem Vec2.add_sub_cancel_left (v w : Vec2) : (v + w) - v = w := by
  simp [Vec2.ext_iff]

/-- Claim C7: the two positional corrections of one `solve` call satisfy
`|Δpos_a| * mass_a = |Δpos_b| * mass_b`, so the heavier endpoint moves
proportionally less. -/
theorem solve_mass_weighted_ratio (arena : List Node) (c : Constraint)
    (hab : c.a ≠ c.b) (ha : c.a < arena.length) (hb : c.b < arena.length)
    (hfa : (getNode arena c.a).fixed = false)
    (hfb : (getNode arena c.b).fixed = false)
    (hma : 0 < (getNode arena c.a).mass) (hmb : 0 < (getNode arena c.b).mass) :
    ((getNode (c.solve arena) c.a).pos - (getNode arena c.a).pos).length *
        (getNode arena c.a).mass =
      ((getNode (c.solve arena) c.b).pos - (getNode arena c.b).pos).length *
        (getNode arena c.b).mass := by
  rw [solve_pos_a c arena hab ha hfa, solve_pos_b c arena hab hb hfb,
    Vec2.add_sub_cancel_left, Vec2.add_sub_cancel_left, Vec2.length_neg,
    Vec2.length_smul, Vec2.length_smul,
    abs_of_pos (by positivity : (0 : ℝ) < 1 / (getNode arena c.a).mass),
    abs_of_pos (by positivity : (0 : ℝ) < 1 / (getNode arena c.b).mass)]
  field_simp

/-- Witness for C7 at two unit-mass free nodes 100 units apart. -/
theorem solve_mass_weighted_ratio_witness :
    witC.a ≠ witC.b ∧ 0 < (getNode witArena 0).mass ∧
    ((getNode (witC.solve witArena) witC.a).pos - (getNode witArena witC.a).pos).length *
        (getNode witArena witC.a).mass =
      ((getNode (witC.solve witArena) witC.b).pos - (getNode witArena witC.b).pos).length *
        (getNode witArena witC.b).mass :=
  ⟨by simp [witC], by norm_num [witArena, getNode, Node.with_pos_and_mass],

    solve_mass_weighted_ratio witArena witC
      (by simp [witC]) (by simp [witArena, witC]) (by simp [witArena, witC]) rfl rfl
      (by norm_num [witArena, witC, getNode, Node.with_pos_and_mass])
      (by norm_num [witArena, witC, getNode, Node.with_pos_and_mass])⟩

/-- Offsets of zero leave every node of the arena untouched by `solve`. -/
theorem solve_getNode_of_offs_zero (c : Constraint) (arena : List Node)
    (h : solveOffs (getNode arena c.a) (getNode arena c.b) = 0) (i : ℕ) :
    getNode (c.solve arena) i = getNode arena i := by
  simp only [Constraint.solve, h, Vec2.smul_zero, Vec2.neg_zero, Node.add_offs_zero]
  rw [getNode_set_same, getNode_set_same]

theorem solveOffs_eq_zero_of_rest (na nb : Node)
    (hd : (nb.pos - na.pos).length = TARGET_DIST) : solveOffs na nb = 0 := by
  simp only [solveOffs, hd, sub_self, zero_mul, zero_div, Vec2.zero_smul,
    lt_irrefl, if_false]

/-- Claim C8: when the endpoints sit at exactly the target rest length, `solve`
changes neither endpoint's position — exact rest distance is a fixed point
of constraint relaxation. -/
theorem solve_rest_length_fixed_point (arena : List Node) (c : Constraint)
    (hd : ((getNode arena c.b).pos - (getNode arena c.a).pos).length = TARGET_DIST) :
    (getNode (c.solve arena) c.a).pos = (getNode arena c.a).pos ∧
    (getNode (c.solve arena) c.b).pos = (getNode arena c.b).pos := by
  have h0 := solveOffs_eq_zero_of_rest (getNode arena c.a) (getNode arena c.b) hd
  rw [solve_getNode_of_offs_zero c arena h0 c.a, solve_getNode_of_offs_zero c arena h0 c.b]
  exact ⟨rfl, rfl⟩

/-- Witness for C8 at two nodes exactly 50 units apart. -/
theorem solve_rest_length_fixed_point_witness :
    ((getNode restArena witC.b).pos - (getNode restArena witC.a).pos).length = TARGET_DIST ∧
    ((getNode (witC.solve restArena) witC.a).pos = (getNode restArena witC.a).pos ∧
     (getNode (witC.solve restArena) witC.b).pos = (getNode restArena witC.b).pos) := by
  have hd : ((getNode restArena witC.b).pos - (getNode restArena witC.a).pos).length
      = TARGET_DIST := by
    have hv : (getNode restArena witC.b).pos - (getNode restArena witC.a).pos
        = Vec2.mk 0 50 := by
      simp [restArena, witC, getNode, Node.with_pos_and_mass, Vec2.ext_iff]
    rw [hv]
    show Real.sqrt ((0 : ℝ) ^ 2 + (50 : ℝ) ^ 2) = TARGET_DIST
    rw [show (0 : ℝ) ^ 2 + (50 : ℝ) ^ 2 = 50 ^ 2 by norm_num,
      Real.sqrt_sq (by norm_num : (0 : ℝ) ≤ 50)]
    norm_num [TARGET_DIST]
  exact ⟨hd, solve_rest_length_fixed_point restArena witC hd⟩

/-- Claim C9: coincident endpoints are a defined edge case of `solve`: the
separation vector normalises to the zero vector, the computed correction is
zero, and both endpoint positions are left unchanged. -/
theorem solve_coincident_zero_correction (arena : List Node) (c : Constraint)
    (hp : (getNode arena c.a).pos = (getNode arena c.b).pos) :
    ((getNode arena c.b).pos - (getNode arena c.a).pos).normalize_or_zero = 0 ∧
    solveOffs (getNode arena c.a) (getNode arena c.b) = 0 ∧
    (getNode (c.solve arena) c.a).pos = (getNode arena c.a).pos ∧
    (getNode (c.solve arena) c.b).pos = (getNode arena c.b).pos := by
  have hr : (getNode arena c.b).pos - (getNode arena c.a).pos = 0 := by
    rw [hp]; exact Vec2.sub_self _
  have hnorm : ((getNode arena c.b).pos - (getNode arena c.a).pos).normalize_or_zero = 0 := by
    rw [hr]; exact Vec2.normalize_or_zero_zero
  have h0 : solveOffs (getNode arena c.a) (getNode arena c.b) = 0 := by
    simp only [solveOffs, hr, Vec2.normalize_or_zero_zero, Vec2.smul_zero, ite_self]
  refine ⟨hnorm, h0, ?_, ?_⟩
  · rw [solve_getNode_of_offs_zero c arena h0 c.a]
  · rw [solve_getNode_of_offs_zero c arena h0 c.b]

/-- Witness for C9 at two coincident nodes. -/
theorem solve_coincident_zero_correction_witness :
    (getNode coincidentArena witC.a).pos = (getNode coincidentArena witC.b).pos ∧
    (((getNode coincidentArena witC.b).pos -
        (getNode coincidentArena witC.a).pos).normalize_or_zero = 0 ∧
     solveOffs (getNode coincidentArena witC.a) (getNode coincidentArena witC.b) = 0 ∧
     (getNode (witC.solve coincidentArena) witC.a).pos = (getNode coincidentArena witC.a).pos ∧
     (getNode (witC.solve coincidentArena) witC.b).pos = (getNode coincidentArena witC.b).pos) :=
  ⟨rfl, solve_coincident_zero_correction coincidentArena witC rfl⟩

theorem update_constraints_eq (input : Input) (s : MainState) :
    (s.update input).constraints =
      cutStep input.right_down input.mouse_pos s.last_mouse_pos (s.relaxed_arena input)
        (breakStep (s.relaxed_arena input) s.constraints) := rfl

/-- Claim C3 (amended): with the cutting button up, a constraint present at the
start of a tick is still present after the tick iff the distance between its
endpoints, as positioned after that tick's relaxation, is strictly below its
`break_threshold` — so it is removed exactly in the first tick whose
relaxation pushes the separation to `break_threshold` or beyond. -/
theorem break_membership_iff (input : Input) (s : MainState) (c : Constraint)
    (hc : c ∈ s.constraints) (hheld : input.right_down = false) :
    c ∈ (s.update input).constraints ↔
      ((getNode (s.relaxed_arena input) c.a).pos -
        (getNode (s.relaxed_arena input) c.b).pos).length < c.break_threshold := by
  rw [update_constraints_eq, hheld]
  show c ∈ breakStep (s.relaxed_arena input) s.constraints ↔ _
  unfold breakStep
  rw [List.mem_filter]
  simp [hc]

/-- Witness for C3's amended theorem. -/
theorem break_membership_iff_witness :
    witC ∈ (MainState.mk [] [witC] 0).constraints ∧
    (Input.mk 0 false).right_down = false ∧
    (witC ∈ ((MainState.mk [] [witC] 0).update (Input.mk 0 false)).constraints ↔
      ((getNode ((MainState.mk [] [witC] 0).relaxed_arena (Input.mk 0 false)) witC.a).pos -
        (getNode ((MainState.mk [] [witC] 0).relaxed_arena (Input.mk 0 false)) witC.b).pos).length
          < witC.break_threshold) :=
  ⟨List.mem_singleton.mpr rfl, rfl,
    break_membership_iff (Input.mk 0 false) (MainState.mk [] [witC] 0) witC
      (List.mem_singleton.mpr rfl) rfl⟩

/-- Counterexample to C3 as stated: at endpoint separation exactly equal to
`break_threshold`, the constraint is removed by the tick even though the
distance does not exceed (is not strictly greater than) the threshold, so
"absent iff the distance exceeds `break_threshold`" fails. -/
theorem break_exceeds_counterexample :
    witC ∈ cexState.constraints ∧
    witC ∉ (cexState.update cexInput).constraints ∧
    ¬ (((getNode (cexState.relaxed_arena cexInput) witC.a).pos -
        (getNode (cexState.relaxed_arena cexInput) witC.b).pos).length >
          witC.break_threshold) := by
  have hfix0 : (getNode cexState.arena 0).fixed = true := rfl
  have hfix1 : (getNode cexState.arena 1).fixed = true := rfl
  have hi0 : (0 : ℕ) < cexState.arena.length := by simp [cexState, cexArena]
  have hi1 : (1 : ℕ) < cexState.arena.length := by simp [cexState, cexArena]
  have hA0 := (relaxed_arena_getNode_fixed cexInput cexState 0 hi0 hfix0).1
  have hA1 := (relaxed_arena_getNode_fixed cexInput cexState 1 hi1 hfix1).1
  have hv : (getNode (cexState.relaxed_arena cexInput) 0).pos -
      (getNode (cexState.relaxed_arena cexInput) 1).pos = Vec2.mk 0 (-250) := by
    rw [hA0, hA1]
    show (Vec2.mk 0 0) - (Vec2.mk 0 250) = Vec2.mk 0 (-250)
    rw [Vec2.ext_iff]
    constructor <;> norm_num
  have hd : ((getNode (cexState.relaxed_arena cexInput) 0).pos -
      (getNode (cexState.relaxed_arena cexInput) 1).pos).length = 250 := by
    rw [hv]
    show Real.sqrt ((0 : ℝ) ^ 2 + (-250 : ℝ) ^ 2) = 250
    rw [show (0 : ℝ) ^ 2 + (-250 : ℝ) ^ 2 = 250 ^ 2 by norm_num,
      Real.sqrt_sq (by norm_num : (0 : ℝ) ≤ 250)]
  have pfalse : decide (((getNode (cexState.relaxed_arena cexInput) witC.a).pos -
      (getNode (cexState.relaxed_arena cexInput) witC.b).pos).length <
        witC.break_threshold) = false := by
    apply decide_eq_false
    show ¬ ((getNode (cexState.relaxed_arena cexInput) 0).pos -
      (getNode (cexState.relaxed_arena cexInput) 1).pos).length < (250 : ℝ)
    rw [hd]
    exact lt_irrefl 250
  refine ⟨List.mem_singleton.mpr rfl, ?_, ?_⟩
  · rw [update_constraints_eq]
    show witC ∉ breakStep (cexState.relaxed_arena cexInput) cexState.constraints
    unfold breakStep
    intro hmem
    have := (List.mem_filter.mp hmem).2
    rw [pfalse] at this
    exact Bool.false_ne_true this
  · show ¬ ((getNode (cexState.relaxed_arena cexInput) 0).pos -
      (getNode (cexState.relaxed_arena cexInput) 1).pos).length > (250 : ℝ)
    rw [hd]
    exact lt_irrefl 250

theorem mem_of_mem_breakStep (arena : List Node) (cs : List Constraint) (c : Constraint)
    (h : c ∈ breakStep arena cs) : c ∈ cs :=
  (List.mem_filter.mp h).1

theorem mem_of_mem_cutStep (held : Bool) (mouse last : Vec2) (arena : List Node)
    (cs : List Constraint) (c : Constraint) (h : c ∈ cutStep held mouse last arena cs) :
    c ∈ cs := by
  cases held with
  | false => exact h
  | true =>
    have h' : c ∈ cs.filter (fun k =>
        ! cutIntersects (getNode arena k.a).pos (getNode arena k.b).pos mouse last) := h
    exact (List.mem_filter.mp h').1

theorem update_good (input : Input) (s : MainState) (h : GoodState s) :
    GoodState (s.update input) := by
  intro c hc
  rw [update_constraints_eq] at hc
  have hmem : c ∈ s.constraints :=
    mem_of_mem_breakStep _ _ _ (mem_of_mem_cutStep _ _ _ _ _ _ hc)
  have hg := h c hmem
  rw [update_arena_length]
  exact hg

theorem runUpdates_good (inputs : List Input) (s : MainState) (h : GoodState s) :
    GoodState (runUpdates inputs s) := by
  induction inputs generalizing s with
  | nil => exact h
  | cons inp inputs ih => exact ih (s.update inp) (update_good inp s h)

theorem default_good (w h : ℝ) (mouse : Vec2) : GoodState (MainState.default w h mouse) := by
  intro c hc
  simp only [MainState.default, List.mem_map, List.mem_range] at hc
  obtain ⟨j, hj, rfl⟩ := hc
  have hlen : (MainState.default w h mouse).arena.length = NUM_POINTS := by
    simp only [MainState.default, List.length_map, List.length_range]
  refine ⟨by simp, ?_, ?_⟩ <;>
    (rw [hlen]; simp only [NUM_POINTS] at hj ⊢; omega)

/-- Claim C10: starting from the default chain, after any sequence of ticks every
active constraint still has distinct endpoint indices, both below the arena
length — nodes are never removed, constraints only filtered — so all arena
indexing through constraints stays in bounds. -/
theorem default_reachable_constraints_valid (w h : ℝ) (mouse : Vec2)
    (inputs : List Input) (c : Constraint)
    (hc : c ∈ (runUpdates inputs (MainState.default w h mouse)).constraints) :
    c.a ≠ c.b ∧
    c.a < (runUpdates inputs (MainState.default w h mouse)).arena.length ∧
    c.b < (runUpdates inputs (MainState.default w h mouse)).arena.length :=
  runUpdates_good inputs (MainState.default w h mouse) (default_good w h mouse) c hc

/-- Witness for C10 at the default state with no ticks. -/
theorem default_reachable_constraints_valid_witness :
    Constraint.mk 0 1 (TARGET_DIST * 5) ∈
      (runUpdates [] (MainState.default 900 600 0)).constraints ∧
    ((Constraint.mk 0 1 (TARGET_DIST * 5)).a ≠ (Constraint.mk 0 1 (TARGET_DIST * 5)).b ∧
     (Constraint.mk 0 1 (TARGET_DIST * 5)).a <
       (runUpdates [] (MainState.default 900 600 0)).arena.length ∧
     (Constraint.mk 0 1 (TARGET_DIST * 5)).b <
       (runUpdates [] (MainState.default 900 600 0)).arena.length) := by
  have hmem : Constraint.mk 0 1 (TARGET_DIST * 5) ∈
      (runUpdates [] (MainState.default 900 600 0)).constraints := by
    show Constraint.mk 0 1 (TARGET_DIST * 5) ∈ (MainState.default 900 600 0).constraints
    simp only [MainState.default, List.mem_map, List.mem_range]
    exact ⟨0, by norm_num [NUM_POINTS], rfl⟩
  exact ⟨hmem, default_reachable_constraints_valid 900 600 0 [] _ hmem⟩

end SpringDemo
